import Mathlib

set_option linter.unusedVariables false

/-!
# Verification of the `dusted-go/logging` handlers

Shallow embedding of the repository's log-handler code:

* the attribute-tree data model shared by all handlers (`AttrVal`/`Attrs`),
* the OpenTelemetry trace-injector handler (`src/otel/handler.go`),
* the Google Cloud (stackdriver) formatter's error discriminator,
* the pretty formatter's scratch-buffer stage, level color bands,
  attribute-block encoding and line assembly
  (`src/slogging.go` and the `pretty` package variant),
* the HTTP middleware's `Forwarded` parsing and client-address resolution
  (`src/middlewares/httplogger`).

Pure Go functions become Lean functions; the mutex/buffer pair becomes
explicit state passing; fallible code returns `Except`.
-/

namespace Logging

/-! ## Attribute tree model

`slog.Attr` is a key paired with a value; a value is either a scalar
(modelled as its rendered string) or a nested group of attributes.
A mutual inductive keeps all recursion structural. -/

mutual

inductive AttrVal : Type where
  | vstr : String → AttrVal
  | vgroup : Attrs → AttrVal

inductive Attrs : Type where
  | nil : Attrs
  | cons : String → AttrVal → Attrs → Attrs

end

def Attrs.append : Attrs → Attrs → Attrs
  | .nil, ys => ys
  | .cons k v xs, ys => .cons k v (xs.append ys)

/-- Top-level keys of an attribute list, in order. -/
def Attrs.keys : Attrs → List String
  | .nil => []
  | .cons k _ xs => k :: xs.keys

def Attrs.length : Attrs → Nat
  | .nil => 0
  | .cons _ _ xs => xs.length + 1

/-- Wrap an attribute list in nested single-attribute groups, outermost
group name first (the shape produced by `slog.Group(g0, slog.Group(g1, ...))`). -/
def nestUnder : List String → Attrs → Attrs
  | [], as => as
  | g :: gs, as => .cons g (.vgroup (nestUnder gs as)) .nil

@[simp] theorem Attrs.nil_append (ys : Attrs) : Attrs.append .nil ys = ys := rfl

@[simp] theorem Attrs.append_nil : ∀ xs : Attrs, Attrs.append xs .nil = xs
  | .nil => rfl
  | .cons k v xs => by rw [Attrs.append, Attrs.append_nil xs]

/-! ## Log record

`slog.Record`: timestamp, level, message, program counter and the
attributes added at the log call. Timestamp and PC are opaque tokens. -/

structure Record where
  time : Nat
  level : Int
  msg : String
  pc : Nat
  attrs : Attrs

/-! ## Base handler model

Model of the wrapped `log/slog` handler (e.g. `slog.JSONHandler` /
`slog.TextHandler`) following the documented `slog.Handler` contract:
`WithAttrs` attributes are qualified by the groups open at binding time
and emitted before record attributes; `WithGroup` opens a group that
qualifies all subsequent attributes, including the record's own. -/

structure BaseHandler where
  preformatted : Attrs
  openGroups : List String

def BaseHandler.withAttrs (b : BaseHandler) (as : Attrs) : BaseHandler :=
  { b with preformatted := b.preformatted.append (nestUnder b.openGroups as) }

def BaseHandler.withGroup (b : BaseHandler) (g : String) : BaseHandler :=
  { b with openGroups := b.openGroups ++ [g] }

/-- The attribute tree the base handler emits for a record: preformatted
attributes followed by the record's attributes nested under the open groups. -/
def BaseHandler.handleAttrs (b : BaseHandler) (rattrs : Attrs) : Attrs :=
  b.preformatted.append (nestUnder b.openGroups rattrs)

def BaseHandler.handleRecord (b : BaseHandler) (r : Record) : Record :=
  { r with attrs := b.handleAttrs r.attrs }

/-! ## OpenTelemetry trace-injector handler (`src/otel/handler.go`)

A span context is modelled as `Option (String × String)`:
`some (traceID, spanID)` when `span.SpanContext().IsValid()` holds,
`none` otherwise. -/

structure OtelHandler where
  handler : BaseHandler
  preAttrs : Attrs
  groups : List String

/-- `otel.Wrap` (handler.go lines 23-29). -/
def OtelHandler.wrap (b : BaseHandler) : OtelHandler :=
  { handler := b, preAttrs := .nil, groups := [] }

/-- `Handler.WithAttrs` (handler.go lines 99-123). -/
def OtelHandler.withAttrs (h : OtelHandler) (attrs : Attrs) : OtelHandler :=
  if attrs.length = 0 then h
  else if h.groups.length = 0 then
    { h with preAttrs := h.preAttrs.append attrs }
  else
    { h with handler := h.handler.withAttrs attrs }

/-- `Handler.WithGroup` (handler.go lines 126-151). The first group keeps
the wrapped handler untouched; deeper groups call `WithGroup` on it. -/
def OtelHandler.withGroup (h : OtelHandler) (name : String) : OtelHandler :=
  if name = "" then h
  else
    { handler := if h.groups.length = 0 then h.handler else h.handler.withGroup name,
      preAttrs := h.preAttrs,
      groups := h.groups ++ [name] }

/-- The record `Handler.Handle` (handler.go lines 38-95) passes to the
wrapped handler: the original record on the fast path, otherwise a new
record carrying the otel group, the pre-attributes and the re-nested
record attributes. -/
def OtelHandler.delegated (h : OtelHandler) (span : Option (String × String))
    (r : Record) : Record :=
  if span.isNone ∧ h.preAttrs.length = 0 then
    r
  else
    let traceAttrs : Attrs :=
      match span with
      | some (tid, sid) =>
          .cons "otel"
            (.vgroup (.cons "trace_id" (.vstr tid)
              (.cons "span_id" (.vstr sid) .nil))) .nil
      | none => .nil
    let grouped : Attrs :=
      if h.groups.length > 0 then nestUnder h.groups r.attrs else r.attrs
    { r with attrs := (traceAttrs.append h.preAttrs).append grouped }

/-- End-to-end `Handler.Handle`: the wrapped handler processes the
delegated record (handler.go line 95 hands it to `h.handler`). -/
def OtelHandler.handle (h : OtelHandler) (span : Option (String × String))
    (r : Record) : Record :=
  h.handler.handleRecord (h.delegated span r)

/-! ## Named slog levels (`log/slog` numeric constants) -/

def LevelDebug : Int := -4
def LevelInfo : Int := 0
def LevelWarn : Int := 4
def LevelError : Int := 8

/-! ## Cloud (stackdriver) formatter: error-type discriminator

From the `stackdriver` package `Handler.Handle`: records at or above
`slog.LevelError` get the Google error-reporting `@type` attribute
appended before delegation to the wrapped handler. -/

def attrErrorTypeKey : String := "@type"

def attrErrorTypeVal : String :=
  "type.googleapis.com/google.devtools.clouderrorreporting.v1beta1.ReportedErrorEvent"

/-- The record the stackdriver `Handler.Handle` delegates to its wrapped
handler (`r.AddAttrs(slog.String(attrErrorTypeKey, attrErrorTypeVal))`
when `r.Level >= slog.LevelError`). -/
def stackdriverHandle (r : Record) : Record :=
  if r.level ≥ LevelError then
    { r with attrs := r.attrs.append (.cons attrErrorTypeKey (.vstr attrErrorTypeVal) .nil) }
  else r

/-! ## Pretty formatter: shared scratch buffer (`computeAttrs`)

`Handler.computeAttrs` (slogging.go lines 97-116, identical in the
`pretty` package): lock the shared mutex, let the inner JSON handler
write into the shared buffer, parse the buffer, and via `defer` reset
the buffer and unlock on every exit path. The mutex/buffer pair is
explicit state; the inner handler's outcome and the JSON parse are
inputs, so all three exit paths are covered. -/

structure Scratch where
  buffer : String
  locked : Bool
deriving DecidableEq

/-- `h.mutex.Lock()`. -/
def mutexLock (s : Scratch) : Scratch := { s with locked := true }

/-- The deferred closure: `h.buffer.Reset(); h.mutex.Unlock()`. -/
def deferredFinalize (s : Scratch) : Scratch := { s with buffer := "", locked := false }

/-- `Handler.computeAttrs`. `innerHandle` is the wrapped JSON handler's
outcome (`.ok bytes` appends the encoded bytes to the shared buffer);
`parse` is `json.Unmarshal` applied to the buffer contents. -/
def computeAttrs (s0 : Scratch) (innerHandle : Except String String)
    (parse : String → Except String Attrs) : Except String Attrs × Scratch :=
  let s1 := mutexLock s0
  match innerHandle with
  | .error e =>
      (.error ("error when calling inner handler's Handle: " ++ e), deferredFinalize s1)
  | .ok bytes =>
      let s2 := { s1 with buffer := s1.buffer ++ bytes }
      match parse s2.buffer with
      | .error e =>
          (.error ("error when unmarshaling inner handler's Handle result: " ++ e),
            deferredFinalize s2)
      | .ok attrs => (.ok attrs, deferredFinalize s2)

/-! ## Pretty formatter: colors, level strings, time formatting -/

def lightGray : Nat := 37
def darkGray : Nat := 90
def lightRed : Nat := 91
def lightYellow : Nat := 93
def lightBlue : Nat := 94
def lightMagenta : Nat := 95
def cyan : Nat := 36
def white : Nat := 97

/-- `colorizer` (slogging.go lines 49-51): ANSI color wrapping. -/
def colorizer (colorCode : Nat) (v : String) : String :=
  "\x1b[" ++ toString colorCode ++ "m" ++ v ++ "\x1b[0m"

/-- The color chosen by the level band chain in `Handler.Handle`
(slogging.go lines 138-150, identical in the `pretty` package). -/
def levelColorCode (level : Int) : Nat :=
  if level ≤ LevelDebug then lightGray
  else if level ≤ LevelInfo then cyan
  else if level < LevelWarn then lightBlue
  else if level < LevelError then lightYellow
  else if level = LevelError then lightRed
  else lightMagenta

/-- The `%+d` suffix used by `slog.Level.String` for offsets. -/
def levelOffset (d : Int) : String :=
  if d = 0 then "" else if d > 0 then "+" ++ toString d else toString d

/-- `slog.Level.String()`: named level plus signed offset. -/
def levelString (l : Int) : String :=
  if l < LevelInfo then "DEBUG" ++ levelOffset (l - LevelDebug)
  else if l < LevelWarn then "INFO" ++ levelOffset (l - LevelInfo)
  else if l < LevelError then "WARN" ++ levelOffset (l - LevelWarn)
  else "ERROR" ++ levelOffset (l - LevelError)

/-- Wall-clock timestamp (hour, minute, second, millisecond). -/
structure PrettyTime where
  hh : Nat
  mm : Nat
  ss : Nat
  ms : Nat

def pad2 (n : Nat) : String := if n < 10 then "0" ++ toString n else toString n

def pad3 (n : Nat) : String :=
  if n < 10 then "00" ++ toString n
  else if n < 100 then "0" ++ toString n
  else toString n

/-- `r.Time.Format("[15:04:05.000]")`. -/
def formatTime (t : PrettyTime) : String :=
  "[" ++ pad2 t.hh ++ ":" ++ pad2 t.mm ++ ":" ++ pad2 t.ss ++ "." ++ pad3 t.ms ++ "]"

/-! ## Pretty formatter: attribute-block encoding

Models `json.MarshalIndent(attrs, "", "  ")` and `yaml.Marshal(attrs)`
applied to the round-tripped `map[string]any` mapping. Go maps render
with keys sorted bytewise at every level; an empty map renders as `{}`
in JSON and as `{}` followed by a newline in yaml.v3. -/

/-- Lexicographic character-list order (Go's bytewise string order;
UTF-8 byte order agrees with codepoint order). -/
def charListLt : List Char → List Char → Bool
  | [], [] => false
  | [], _ :: _ => true
  | _ :: _, [] => false
  | a :: as, b :: bs =>
      if a.toNat < b.toNat then true
      else if b.toNat < a.toNat then false
      else charListLt as bs

def keyLt (a b : String) : Bool := charListLt a.toList b.toList

/-- Insert an entry into a key-sorted attribute list (bytewise key order,
as Go's `encoding/json` sorts map keys). -/
def insertByKey (k : String) (v : AttrVal) : Attrs → Attrs
  | .nil => .cons k v .nil
  | .cons k2 v2 rest =>
      if keyLt k k2 then .cons k v (.cons k2 v2 rest)
      else .cons k2 v2 (insertByKey k v rest)

def sortByKey : Attrs → Attrs
  | .nil => .nil
  | .cons k v rest => insertByKey k v (sortByKey rest)

mutual

/-- Sort every nesting level of an attribute tree by key. -/
def sortValDeep : AttrVal → AttrVal
  | .vstr s => .vstr s
  | .vgroup g => .vgroup (sortByKey (sortAttrsDeep g))

def sortAttrsDeep : Attrs → Attrs
  | .nil => .nil
  | .cons k v rest => .cons k (sortValDeep v) (sortAttrsDeep rest)

end

def hexDigit (n : Nat) : Char :=
  if n < 10 then Char.ofNat (48 + n) else Char.ofNat (87 + (n - 10))

/-- Go `encoding/json` string escaping (quotes, backslash, control
characters, and HTML-unsafe characters as `\uXXXX`). -/
def jsonEscapeChar (c : Char) : String :=
  if c = '"' then "\\\""
  else if c = '\\' then "\\\\"
  else if c = '\n' then "\\n"
  else if c = '\r' then "\\r"
  else if c = '\t' then "\\t"
  else if c = '<' then "\\u003c"
  else if c = '>' then "\\u003e"
  else if c = '&' then "\\u0026"
  else if c.toNat < 32 then
    "\\u00" ++ String.mk [hexDigit (c.toNat / 16), hexDigit (c.toNat % 16)]
  else String.mk [c]

def jsonQuote (s : String) : String :=
  "\"" ++ String.join (s.toList.map jsonEscapeChar) ++ "\""

def twoSpaceIndent (d : Nat) : String := String.mk (List.replicate (2 * d) ' ')

mutual

def jsonValIndent : AttrVal → Nat → String
  | .vstr s, _ => jsonQuote s
  | .vgroup g, d => jsonObjIndent g d

/-- `{}`-delimited object with two-space indentation, entries in the
order given (callers pass a deep-sorted tree). -/
def jsonObjIndent : Attrs → Nat → String
  | .nil, _ => "{}"
  | .cons k v rest, d =>
      "\x7b\n" ++ twoSpaceIndent (d + 1) ++ jsonQuote k ++ ": " ++ jsonValIndent v (d + 1)
        ++ jsonMoreEntries rest (d + 1) ++ "\n" ++ twoSpaceIndent d ++ "\x7d"

/-- Remaining object entries, each preceded by a comma and newline. -/
def jsonMoreEntries : Attrs → Nat → String
  | .nil, _ => ""
  | .cons k v rest, d =>
      ",\n" ++ twoSpaceIndent d ++ jsonQuote k ++ ": " ++ jsonValIndent v d
        ++ jsonMoreEntries rest d

end

/-- `json.MarshalIndent(attrs, "", "  ")` on the round-tripped mapping. -/
def jsonMarshalIndentTop (m : Attrs) : String :=
  jsonObjIndent (sortByKey (sortAttrsDeep m)) 0

def fourSpaceIndent (d : Nat) : String := String.mk (List.replicate (4 * d) ' ')

mutual

/-- The text following `key:` in yaml.v3 block style. -/
def yamlValBlock : AttrVal → Nat → String
  | .vstr s, _ => " " ++ s ++ "\n"
  | .vgroup .nil, _ => " {}\n"
  | .vgroup (.cons k v rest), d =>
      "\n" ++ fourSpaceIndent (d + 1) ++ k ++ ":" ++ yamlValBlock v (d + 1)
        ++ yamlEntries rest (d + 1)

def yamlEntries : Attrs → Nat → String
  | .nil, _ => ""
  | .cons k v rest, d =>
      fourSpaceIndent d ++ k ++ ":" ++ yamlValBlock v d ++ yamlEntries rest d

end

/-- `yaml.Marshal(attrs)` (gopkg.in/yaml.v3): an empty mapping renders in
flow style as a line holding `\x7b\x7d`, a nonempty one in block style. -/
def yamlMarshalTop (m : Attrs) : String :=
  match sortByKey (sortAttrsDeep m) with
  | .nil => "{}\n"
  | .cons k v rest => yamlEntries (.cons k v rest) 0

/-- The attribute-block stage of `Handler.Handle` (slogging.go lines
182-196): skip when the mapping is empty and empty output is disabled,
otherwise serialize in the configured encoding, prefixing YAML output
with a newline; an unrecognized encoder is an error. -/
def attrBlock (outputEmptyAttrs : Bool) (enc : String) (attrs : Attrs) :
    Except String String :=
  if outputEmptyAttrs ∨ attrs.length > 0 then
    if enc = "json" then .ok (jsonMarshalIndentTop attrs)
    else if enc = "yaml" then .ok ("\n" ++ yamlMarshalTop attrs)
    else .error ("unsupported encoder \x22" ++ enc ++ "\x22")
  else .ok ""

/-! ## Pretty formatter: line assembly

Two implementations exist in the repository: the `slogging` root package
builds the line with a `strings.Builder`, writing each non-empty piece
followed by a space (the attribute block without one); the `pretty`
package collects non-empty pieces and joins them with `strings.Join`. -/

/-- Line assembly of the root `slogging` package `Handler.Handle`
(slogging.go lines 198-222): `strings.Builder` appends. -/
def sloggingAssemble (timestamp level msg attrsStr : String) : String :=
  let out := ""
  let out := if timestamp.length > 0 then out ++ timestamp ++ " " else out
  let out := if level.length > 0 then out ++ level ++ " " else out
  let out := if msg.length > 0 then out ++ msg ++ " " else out
  let out := if attrsStr.length > 0 then out ++ attrsStr else out
  out ++ "\n"

/-- Line assembly of the `pretty` package `Handler.Handle` (lines
199-216 of the pretty handler): collect non-empty parts, join with
single spaces, append the newline. -/
def prettyAssemble (timestamp level msg attrsStr : String) : String :=
  let parts : List String := []
  let parts := if timestamp.length > 0 then parts ++ [timestamp] else parts
  let parts := if level.length > 0 then parts ++ [level] else parts
  let parts := if msg.length > 0 then parts ++ [msg] else parts
  let parts := if attrsStr.length > 0 then parts ++ [attrsStr] else parts
  String.intercalate " " parts ++ "\n"

/-- The `pretty` package `Handler.Handle` rendering pipeline with no
attribute-rewrite hook configured (`replaceAttrFunc == nil`), taking the
round-tripped attribute mapping produced by `computeAttrs` as input. -/
def prettyHandleLine (colorizeB outputEmptyAttrs : Bool) (enc : String)
    (t : PrettyTime) (level : Int) (msg : String) (rtAttrs : Attrs) :
    Except String String :=
  let colorize := fun (code : Nat) (v : String) =>
    if colorizeB then colorizer code v else v
  let levelS := colorize (levelColorCode level) (levelString level ++ ":")
  let timestamp := colorize lightGray (formatTime t)
  let msgS := colorize white msg
  match attrBlock outputEmptyAttrs enc rtAttrs with
  | .error e => .error e
  | .ok attrsAsBytes =>
      let attrsPiece :=
        if attrsAsBytes.length > 0 then colorize darkGray attrsAsBytes else ""
      .ok (prettyAssemble timestamp levelS msgS attrsPiece)

/-! ## HTTP middleware: Go string primitives

Structural character-list implementations of the `strings` functions the
`httplogger` package uses, so every evaluation reduces in the kernel. -/

/-- `unicode.IsSpace` (the Unicode `White_Space` set). -/
def goIsSpace (c : Char) : Bool :=
  decide (c.toNat ∈ ([9, 10, 11, 12, 13, 32, 133, 160, 5760,
    8192, 8193, 8194, 8195, 8196, 8197, 8198, 8199, 8200, 8201, 8202,
    8232, 8233, 8239, 8287, 12288] : List Nat))

def goTrimSpaceList (l : List Char) : List Char :=
  ((l.dropWhile goIsSpace).reverse.dropWhile goIsSpace).reverse

/-- `strings.TrimSpace`. -/
def goTrimSpace (s : String) : String := ⟨goTrimSpaceList s.toList⟩

/-- `strings.ToLower` on the ASCII range (the header keys and names the
code compares are ASCII). -/
def goToLowerChar (c : Char) : Char :=
  if 65 ≤ c.toNat ∧ c.toNat ≤ 90 then Char.ofNat (c.toNat + 32) else c

def goToLower (s : String) : String := ⟨s.toList.map goToLowerChar⟩

def goSplitList (sep : Char) : List Char → List (List Char)
  | [] => [[]]
  | c :: rest =>
      let r := goSplitList sep rest
      if c = sep then [] :: r
      else
        match r with
        | x :: xs => (c :: x) :: xs
        | [] => [[c]]

/-- `strings.Split` with a one-character separator. -/
def goSplit (s : String) (sep : Char) : List String :=
  (goSplitList sep s.toList).map fun l => ⟨l⟩

def goCutList (sep : Char) : List Char → Option (List Char × List Char)
  | [] => none
  | c :: rest =>
      if c = sep then some ([], rest)
      else
        match goCutList sep rest with
        | some (a, b) => some (c :: a, b)
        | none => none

/-- `strings.Cut` with a one-character separator: split around the first
occurrence, reporting whether it was found. -/
def goCut (s : String) (sep : Char) : Option (String × String) :=
  match goCutList sep s.toList with
  | some (a, b) => some (⟨a⟩, ⟨b⟩)
  | none => none

/-- `strings.Index` with a one-character pattern. -/
def idxOf (l : List Char) (c : Char) : Option Nat :=
  match l with
  | [] => none
  | x :: rest => if x = c then some 0 else (idxOf rest c).map (· + 1)

/-- `strings.LastIndex` with a one-character pattern. -/
def lastIdxOf (l : List Char) (c : Char) : Option Nat :=
  match idxOf l.reverse c with
  | none => none
  | some k => some (l.length - 1 - k)

/-! ## HTTP middleware: `Forwarded` header parsing
(`src/middlewares/httplogger/forwarded.go`) -/

/-- `ForwardedElement` (`by` and `for` are Lean keywords, hence the
`byv`/`forv` field names). -/
structure ForwardedElement where
  byv : String := ""
  forv : String := ""
  host : String := ""
  proto : String := ""
deriving DecidableEq, Repr

/-- Body of the parameter loop of `ParseForwarded` (forwarded.go lines
36-65): trim, cut at the first `=`, lowercase the key, strip one pair of
surrounding double quotes, assign the matching field. -/
def parseForwardedParam (elem : ForwardedElement) (param : String) :
    ForwardedElement :=
  let param := goTrimSpace param
  if param = "" then elem
  else
    match goCut param '=' with
    | none => elem
    | some (key, value) =>
        let key := goToLower (goTrimSpace key)
        let value := goTrimSpace value
        let vl := value.toList
        let value :=
          if vl.length ≥ 2 ∧ vl.head? = some '"' ∧ vl.getLast? = some '"' then
            String.mk (vl.drop 1).dropLast
          else value
        if key = "by" then { elem with byv := value }
        else if key = "for" then { elem with forv := value }
        else if key = "host" then { elem with host := value }
        else if key = "proto" then { elem with proto := value }
        else elem

def parseForwardedElement (part : String) : ForwardedElement :=
  (goSplit part ';').foldl parseForwardedParam {}

/-- `ParseForwarded` (forwarded.go lines 17-70). -/
def parseForwarded (header : String) : List ForwardedElement :=
  if header = "" then []
  else
    (goSplit header ',').foldl
      (fun elements part =>
        let part := goTrimSpace part
        if part = "" then elements
        else elements ++ [parseForwardedElement part])
      []

/-! ## HTTP middleware: host/port splitting
(`src/middlewares/httplogger/httplogger.go`) -/

/-- `net.SplitHostPort` from the Go standard library; `none` is the
error result. -/
def netSplitHostPort (hostPort : String) : Option (String × String) :=
  let l := hostPort.toList
  match lastIdxOf l ':' with
  | none => none
  | some i =>
      if l.head? = some '[' then
        match idxOf l ']' with
        | none => none
        | some endIdx =>
            if endIdx + 1 = l.length then none
            else if endIdx + 1 = i then
              if (idxOf (l.drop 1) '[').isSome then none
              else if (idxOf (l.drop (endIdx + 1)) ']').isSome then none
              else some (⟨(l.take endIdx).drop 1⟩, ⟨l.drop (i + 1)⟩)
            else none
      else
        let host := l.take i
        if (idxOf host ':').isSome then none
        else if (idxOf l '[').isSome then none
        else if (idxOf l ']').isSome then none
        else some (⟨host⟩, ⟨l.drop (i + 1)⟩)

/-- `strconv.ParseUint(pStr, 10, 16)`; `none` is the error result. -/
def parseUint16 (s : String) : Option Nat :=
  let l := s.toList
  if l = [] then none
  else if l.all (fun c => decide (48 ≤ c.toNat ∧ c.toNat ≤ 57)) then
    let n := l.foldl (fun acc c => acc * 10 + (c.toNat - 48)) 0
    if n ≤ 65535 then some n else none
  else none

/-- The tail of `httplogger.splitHostPort` (httplogger.go lines 259-268):
delegate to `net.SplitHostPort` (an error leaves the host empty), then
parse the port (a parse failure keeps the split host with port `-1`). -/
def splitViaNet (hostport : String) : String × Int :=
  match netSplitHostPort hostport with
  | none => ("", -1)
  | some (h, pStr) =>
      match parseUint16 pStr with
      | none => (h, -1)
      | some p => (h, (p : Int))

/-- `httplogger.splitHostPort` (httplogger.go lines 234-269). -/
def splitHostPort (hostport : String) : String × Int :=
  let l := hostport.toList
  if (idxOf l ':').isNone then (hostport, -1)
  else if l.head? = some '[' then
    match lastIdxOf l ']' with
    | none => ("", -1)
    | some addrEnd =>
        if (lastIdxOf (l.drop addrEnd) ':').isNone then
          (⟨(l.take addrEnd).drop 1⟩, -1)
        else splitViaNet hostport
  else
    if (lastIdxOf l ':').isNone then (hostport, -1)
    else splitViaNet hostport

/-- `httplogger.firstHostPort` (httplogger.go lines 272-280): first
source whose split yields a non-empty host or a positive port; the last
split is returned when none qualifies (the zero-value port is `0` when
the source list is empty). -/
def firstHostPort : List String → String × Int
  | [] => ("", 0)
  | s :: rest =>
      let c := splitHostPort s
      if c.1 ≠ "" ∨ c.2 > 0 then c
      else
        match rest with
        | [] => c
        | _ :: _ => firstHostPort rest

/-- `httplogger.parseXForwardedFor` (httplogger.go lines 283-288). -/
def parseXForwardedFor (xForwardedFor : String) : String :=
  let l := xForwardedFor.toList
  let cut :=
    match idxOf l ',' with
    | some i => l.take i
    | none => l
  goTrimSpace ⟨cut⟩

/-- Client-address resolution of `requestAttributes` (httplogger.go
lines 134-149): the first `Forwarded` element's non-empty `for` value is
split first; if that leaves the client address empty, fall back to
`X-Real-IP`, then the first `X-Forwarded-For` element, then
`RemoteAddr`. -/
def forwardedClientSplit (forwarded : List ForwardedElement) : String × Int :=
  match forwarded with
  | e :: _ => if e.forv ≠ "" then splitHostPort e.forv else ("", -1)
  | [] => ("", -1)

def clientAddressPort (forwardedHeader xRealIP xForwardedFor remoteAddr : String) :
    String × Int :=
  let c := forwardedClientSplit (parseForwarded forwardedHeader)
  if c.1 = "" then
    firstHostPort [xRealIP, parseXForwardedFor xForwardedFor, remoteAddr]
  else c

/-! ## Helper lemmas -/

theorem Attrs.keys_append : ∀ a b : Attrs, (a.append b).keys = a.keys ++ b.keys
  | .nil, b => rfl
  | .cons k v rest, b => by
      rw [Attrs.append, Attrs.keys, Attrs.keys, Attrs.keys_append rest b, List.cons_append]

/-- The `pretty` package line assembly equals joining the non-empty
pieces with single spaces. -/
theorem prettyAssemble_filter (ts l m a : String) :
    prettyAssemble ts l m a =
      String.intercalate " "
        (List.filter (fun s => decide (0 < s.length)) [ts, l, m, a]) ++ "\n" := by
  simp only [prettyAssemble, List.filter]
  split_ifs with h1 h2 h3 h4 <;> simp_all

/-! ## Claim theorems -/

/-- C10: for the trace-injector handler, attribute-binding with an empty
attribute list and grouping with an empty group name are identity
operations, returning the receiver with pre-attributes and group chain
unchanged. -/
theorem otel_identity_operations (h : OtelHandler) :
    h.withAttrs .nil = h ∧ h.withGroup "" = h :=
  ⟨rfl, rfl⟩

/-- C4: with no valid trace context in the call's context and no
accumulated root-level pre-attributes, the trace-injector handler passes
the record to the wrapped handler unchanged — same timestamp, level,
message, source reference and attributes. -/
theorem otel_fast_path_unchanged (h : OtelHandler) (r : Record)
    (hpre : h.preAttrs = .nil) : h.delegated none r = r := by
  simp [OtelHandler.delegated, hpre, Attrs.length]

/-- Witness for C4: a grouped handler with no pre-attributes passes a
concrete record through untouched. -/
theorem otel_fast_path_unchanged_witness :
    ((OtelHandler.wrap ⟨.nil, []⟩).withGroup "a").delegated none
        ⟨1, 2, "hello", 3, .cons "x" (.vstr "1") .nil⟩
      = ⟨1, 2, "hello", 3, .cons "x" (.vstr "1") .nil⟩ :=
  otel_fast_path_unchanged _ _ rfl

/-- C1 (evidence of the code bug): after two grouping operations the
wrapped handler has had `WithGroup("b")` applied to it, so the record
rebuilt by `Handle` — otel group included — is emitted nested under the
top-level group `b`; the only top-level key is `b`, and the otel group is
not at the top level, contradicting the handler's documented guarantee. -/
theorem otel_trace_group_nested_after_two_groups :
    ((((OtelHandler.wrap ⟨.nil, []⟩).withGroup "a").withGroup "b").handle
        (some ("tid01", "sid01")) ⟨0, 0, "m", 0, .cons "x" (.vstr "1") .nil⟩).attrs
      = .cons "b"
          (.vgroup (.cons "otel"
            (.vgroup (.cons "trace_id" (.vstr "tid01")
              (.cons "span_id" (.vstr "sid01") .nil)))
            (.cons "a" (.vgroup (.cons "b"
              (.vgroup (.cons "x" (.vstr "1") .nil)) .nil)) .nil))) .nil
    ∧ "otel" ∉ ((((OtelHandler.wrap ⟨.nil, []⟩).withGroup "a").withGroup "b").handle
        (some ("tid01", "sid01")) ⟨0, 0, "m", 0, .cons "x" (.vstr "1") .nil⟩).attrs.keys :=
  ⟨rfl, by decide⟩

/-- C2 (evidence of the code bug): binding an attribute while a group is
active delegates it to the wrapped handler, which has no group open
(the first grouping operation does not propagate), and the fast path
hands the record's own attributes to that same handler — so both the
bound attribute and the record attribute come out at the top level
instead of under the active group `g`. -/
theorem otel_group_attrs_emitted_at_top_level :
    ((((OtelHandler.wrap ⟨.nil, []⟩).withGroup "g").withAttrs
        (.cons "k" (.vstr "v") .nil)).handle none
        ⟨0, 0, "m", 0, .cons "x" (.vstr "y") .nil⟩).attrs
      = .cons "k" (.vstr "v") (.cons "x" (.vstr "y") .nil)
    ∧ "g" ∉ ((((OtelHandler.wrap ⟨.nil, []⟩).withGroup "g").withAttrs
        (.cons "k" (.vstr "v") .nil)).handle none
        ⟨0, 0, "m", 0, .cons "x" (.vstr "y") .nil⟩).attrs.keys :=
  ⟨rfl, by decide⟩

/-- C3: on every exit path of `computeAttrs` — inner-handler failure,
parse failure, or success — the deferred block leaves the shared buffer
empty and the lock released, so a failed record never leaks stale bytes
into a later call: the state after any call is the clean state, and a
subsequent call behaves exactly as if run from the clean state. -/
theorem computeAttrs_always_resets (s0 : Scratch)
    (innerHandle : Except String String)
    (parse : String → Except String Attrs) :
    ((computeAttrs s0 innerHandle parse).2.buffer = ""
      ∧ (computeAttrs s0 innerHandle parse).2.locked = false)
    ∧ ∀ (ih2 : Except String String) (p2 : String → Except String Attrs),
        computeAttrs (computeAttrs s0 innerHandle parse).2 ih2 p2
          = computeAttrs ⟨"", false⟩ ih2 p2 := by
  have hstate : (computeAttrs s0 innerHandle parse).2 = ⟨"", false⟩ := by
    cases innerHandle with
    | error e => rfl
    | ok bytes =>
        show (match parse (s0.buffer ++ bytes) with
          | .error e =>
              (Except.error ("error when unmarshaling inner handler's Handle result: " ++ e),
                deferredFinalize ⟨s0.buffer ++ bytes, true⟩)
          | .ok attrs => (Except.ok attrs, deferredFinalize ⟨s0.buffer ++ bytes, true⟩)).2
          = ⟨"", false⟩
        cases parse (s0.buffer ++ bytes) <;> rfl
  exact ⟨by rw [hstate]; exact ⟨rfl, rfl⟩, fun ih2 p2 => by rw [hstate]⟩

/-- C5 (counterexample to the claim as stated): the root `slogging`
implementation appends a space after each of timestamp, level and
message, so when the attribute block is omitted the line carries a
trailing space before the newline — the omitted piece does contribute
extra whitespace, and the line differs from joining the non-empty pieces
with single spaces. -/
theorem sloggingAssemble_trailing_space :
    sloggingAssemble "[12:34:56.789]" "INFO:" "testing logger" ""
      = "[12:34:56.789] INFO: testing logger \n"
    ∧ sloggingAssemble "[12:34:56.789]" "INFO:" "testing logger" ""
      ≠ String.intercalate " "
          (List.filter (fun s => decide (0 < s.length))
            ["[12:34:56.789]", "INFO:", "testing logger", ""]) ++ "\n" :=
  ⟨rfl, by decide⟩

/-- C5 (amended): the `pretty` package implementation writes exactly one
line: the non-empty rendered pieces joined by single spaces in the fixed
order timestamp, level, message, attribute block, terminated by a
newline, omitted pieces contributing no whitespace; and logging
`testing logger` with no attributes and empty-attrs output enabled
yields `[12:34:56.789] INFO: testing logger \x7b\x7d` plus a newline. -/
theorem pretty_line_assembly :
    (∀ ts l m a : String,
      prettyAssemble ts l m a =
        String.intercalate " "
          (List.filter (fun s => decide (0 < s.length)) [ts, l, m, a]) ++ "\n")
    ∧ prettyHandleLine false true "json" ⟨12, 34, 56, 789⟩ 0 "testing logger" .nil
        = .ok "[12:34:56.789] INFO: testing logger {}\n" :=
  ⟨prettyAssemble_filter, rfl⟩

/-- C6: the pretty formatter's level color is chosen by numeric
thresholds into exactly six bands: at/below debug, above debug and
at/below info, above info and below warn, at/above warn and below error,
exactly error, above error — so a custom level strictly between two
named levels falls into the band its value lies in rather than a default
or error color. -/
theorem levelColorCode_bands (l : Int) :
    (l ≤ LevelDebug → levelColorCode l = lightGray)
    ∧ (LevelDebug < l ∧ l ≤ LevelInfo → levelColorCode l = cyan)
    ∧ (LevelInfo < l ∧ l < LevelWarn → levelColorCode l = lightBlue)
    ∧ (LevelWarn ≤ l ∧ l < LevelError → levelColorCode l = lightYellow)
    ∧ (l = LevelError → levelColorCode l = lightRed)
    ∧ (LevelError < l → levelColorCode l = lightMagenta) := by
  unfold levelColorCode LevelDebug LevelInfo LevelWarn LevelError
  refine ⟨fun h => ?_, fun h => ?_, fun h => ?_, fun h => ?_, fun h => ?_, fun h => ?_⟩
  · rw [if_pos (by omega)]
  · rw [if_neg (by omega), if_pos (by omega)]
  · rw [if_neg (by omega), if_neg (by omega), if_pos (by omega)]
  · rw [if_neg (by omega), if_neg (by omega), if_neg (by omega), if_pos (by omega)]
  · rw [if_neg (by omega), if_neg (by omega), if_neg (by omega), if_neg (by omega),
      if_pos (by omega)]
  · rw [if_neg (by omega), if_neg (by omega), if_neg (by omega), if_neg (by omega),
      if_neg (by omega)]

/-- Witness for C6: the custom level `2`, strictly between info and
warn, receives the below-warn band color. -/
theorem levelColorCode_bands_witness : levelColorCode 2 = lightBlue :=
  (levelColorCode_bands 2).2.2.1 ⟨by decide, by decide⟩

/-- C7: with an empty round-tripped attribute mapping, the attribute
block is omitted entirely when empty-attrs output is disabled (and an
omitted block adds nothing to the line), renders as `\x7b\x7d` under the
JSON encoding when enabled, and under the YAML encoding renders as the
empty flow mapping prefixed by a newline so it starts on its own line. -/
theorem attrBlock_empty_mapping :
    attrBlock false "json" .nil = .ok ""
    ∧ attrBlock false "yaml" .nil = .ok ""
    ∧ attrBlock true "json" .nil = .ok "{}"
    ∧ attrBlock true "yaml" .nil = .ok ("\n" ++ "{}\n")
    ∧ ∀ ts l m : String,
        prettyAssemble ts l m "" =
          String.intercalate " "
            (List.filter (fun s => decide (0 < s.length)) [ts, l, m]) ++ "\n" := by
  refine ⟨rfl, rfl, rfl, rfl, fun ts l m => ?_⟩
  rw [prettyAssemble_filter,
    show ([ts, l, m, ""] : List String) = [ts, l, m] ++ [""] from rfl,
    List.filter_append,
    show List.filter (fun s : String => decide (0 < s.length)) [""] = [] from rfl,
    List.append_nil]

/-- C8 (counterexample to the claim as stated): `for=:80` carries a
non-empty `for` value in the first `Forwarded` element, yet the emitted
client address comes from the first `X-Forwarded-For` element, because
splitting `:80` into host and port leaves an empty host and the code
then falls back to the single-purpose headers. -/
theorem forwarded_nonempty_for_loses :
    (parseForwarded "for=:80").head? = some { forv := ":80" }
    ∧ splitHostPort ":80" = ("", 80)
    ∧ clientAddressPort "for=:80" "" "10.0.0.1, 10.0.0.2" "203.0.113.5:443"
        = ("10.0.0.1", -1) :=
  ⟨rfl, rfl, rfl⟩

/-- C8 (amended): the client address is resolved by priority — the first
`Forwarded` element's `for` value wins over everything else whenever
splitting it into host and port yields a non-empty host; otherwise
`X-Real-IP` wins when its split yields a non-empty host or positive
port; otherwise the first `X-Forwarded-For` element under the same
condition; otherwise the transport-level peer address is used. -/
theorem clientAddress_priority (fwd xr xff ra : String) :
    ((forwardedClientSplit (parseForwarded fwd)).1 ≠ "" →
      clientAddressPort fwd xr xff ra = forwardedClientSplit (parseForwarded fwd))
    ∧ ((forwardedClientSplit (parseForwarded fwd)).1 = "" →
        ((splitHostPort xr).1 ≠ "" ∨ (splitHostPort xr).2 > 0) →
        clientAddressPort fwd xr xff ra = splitHostPort xr)
    ∧ ((forwardedClientSplit (parseForwarded fwd)).1 = "" →
        ¬((splitHostPort xr).1 ≠ "" ∨ (splitHostPort xr).2 > 0) →
        ((splitHostPort (parseXForwardedFor xff)).1 ≠ ""
          ∨ (splitHostPort (parseXForwardedFor xff)).2 > 0) →
        clientAddressPort fwd xr xff ra = splitHostPort (parseXForwardedFor xff))
    ∧ ((forwardedClientSplit (parseForwarded fwd)).1 = "" →
        ¬((splitHostPort xr).1 ≠ "" ∨ (splitHostPort xr).2 > 0) →
        ¬((splitHostPort (parseXForwardedFor xff)).1 ≠ ""
          ∨ (splitHostPort (parseXForwardedFor xff)).2 > 0) →
        clientAddressPort fwd xr xff ra = splitHostPort ra) := by
  refine ⟨fun h => ?_, fun h hq => ?_, fun h hq hx => ?_, fun h hq hx => ?_⟩
  · unfold clientAddressPort
    rw [if_neg h]
  · unfold clientAddressPort
    rw [if_pos h]
    simp only [firstHostPort]
    rw [if_pos hq]
  · unfold clientAddressPort
    rw [if_pos h]
    simp only [firstHostPort]
    rw [if_neg hq, if_pos hx]
  · unfold clientAddressPort
    rw [if_pos h]
    simp only [firstHostPort]
    rw [if_neg hq, if_neg hx]
    split <;> rfl

/-- Witness for C8: a parseable `Forwarded` `for` host wins over a
populated `X-Forwarded-For` header and peer address. -/
theorem clientAddress_priority_witness :
    clientAddressPort "for=192.0.2.60;proto=http" "" "10.0.0.1, 10.0.0.2"
        "203.0.113.5:443" = ("192.0.2.60", -1) :=
  ((clientAddress_priority "for=192.0.2.60;proto=http" "" "10.0.0.1, 10.0.0.2"
      "203.0.113.5:443").1 (by decide)).trans rfl

/-- C9: the cloud formatter adds the `@type` error-reporting
discriminator to a record exactly when its level is at or above the
error threshold, appending it before delegation; records below the
threshold are delegated entirely unchanged. -/
theorem stackdriver_error_discriminator (r : Record)
    (hfresh : attrErrorTypeKey ∉ r.attrs.keys) :
    ((attrErrorTypeKey ∈ (stackdriverHandle r).attrs.keys) ↔ r.level ≥ LevelError)
    ∧ (r.level ≥ LevelError →
        (stackdriverHandle r).attrs =
          r.attrs.append (.cons attrErrorTypeKey (.vstr attrErrorTypeVal) .nil))
    ∧ (r.level < LevelError → stackdriverHandle r = r) := by
  unfold stackdriverHandle
  by_cases h : r.level ≥ LevelError
  · rw [if_pos h]
    refine ⟨?_, fun _ => rfl, fun hlt => absurd h (by omega)⟩
    simp [Attrs.keys_append, Attrs.keys, hfresh, h]
  · rw [if_neg h]
    exact ⟨iff_of_false hfresh h, fun hge => absurd hge h, fun _ => rfl⟩

/-- Witness for C9: an error-level record with fresh attributes gets the
discriminator; the same record one level lower is untouched. -/
theorem stackdriver_error_discriminator_witness :
    attrErrorTypeKey ∈ (stackdriverHandle ⟨0, 8, "boom", 0, .nil⟩).attrs.keys
    ∧ stackdriverHandle ⟨0, 7, "warns", 0, .nil⟩ = ⟨0, 7, "warns", 0, .nil⟩ :=
  ⟨(stackdriver_error_discriminator ⟨0, 8, "boom", 0, .nil⟩ (by decide)).1.mpr
      (by decide),
    (stackdriver_error_discriminator ⟨0, 7, "warns", 0, .nil⟩ (by decide)).2.2
      (by decide)⟩

end Logging
